import Mathlib

/-!
Shallow embedding of the RDS-instance lifecycle reconciler
(`pkg/controller/rds/rdsinstance.go`) of the provider-aws repository.

External collaborators (provider client, record store, reference resolver,
credential publisher) are modelled by an `Env` oracle holding the result each
collaborator call would return; every phase additionally records the external
calls it issues in a `Call` trace, so that absence of a side effect is
provable.
-/

namespace Rds

/-- Modelled from the spec: the provider client "classifies provider errors
into not found / already exists / other", and the reference resolver's errors
are classifiable as "access blocked" versus other transient failure
(the classifier functions `rds.IsErrorAlreadyExists`, `rds.IsErrorNotFound`
and `resource.IsReferencesAccessError` live outside `src/`). -/
inductive ErrClass where
  | alreadyExists
  | notFound
  | referencesAccess
  | otherErr
deriving DecidableEq, Repr

/-- An error value: its classification plus its message. -/
structure Err where
  cls : ErrClass
  msg : String
deriving DecidableEq, Repr

/-- Modelled from the spec: `rds.IsErrorAlreadyExists` (classifier of the
provider client, outside `src/`); takes a possibly-nil Go error. -/
def isErrorAlreadyExists : Option Err → Bool
  | some e => e.cls == ErrClass.alreadyExists
  | none => false

/-- Modelled from the spec: `rds.IsErrorNotFound` / `kerrors.IsNotFound`. -/
def isErrorNotFound : Option Err → Bool
  | some e => e.cls == ErrClass.notFound
  | none => false

/-- Modelled from the spec: `resource.IsReferencesAccessError`. -/
def isReferencesAccessError (e : Err) : Bool :=
  e.cls == ErrClass.referencesAccess

/-- `resource.Ignore(is, err)`: nil when `is(err)` holds, otherwise `err`. -/
def ignore (p : Option Err → Bool) (e : Option Err) : Option Err :=
  if p e then none else e

/-- `errors.Wrap(err, msg)`: nil stays nil, otherwise the message is
prefixed; the classification of the cause is preserved. -/
def errorsWrap (e : Option Err) (msg : String) : Option Err :=
  e.map fun x => ⟨x.cls, msg ++ ": " ++ x.msg⟩

/-- Condition types of the runtime condition vocabulary: `Creating`,
`Available`, `Unavailable` and `Deleting` are `Ready`-typed; the reconcile
success/error pair is `Synced`-typed; reference-resolution conditions are
`ReferencesResolved`-typed. -/
inductive ConditionType where
  | Ready
  | Synced
  | ReferencesResolved
deriving DecidableEq, Repr

/-- A condition's status (Kubernetes `True`/`False`/`Unknown`). -/
inductive CStatus where
  | isTrue
  | isFalse
  | unknownStatus
deriving DecidableEq, Repr

/-- One condition entry: type, status, reason and message. -/
structure Condition where
  ctype : ConditionType
  status : CStatus
  reason : String
  message : String
deriving DecidableEq, Repr

def Creating : Condition := ⟨ConditionType.Ready, CStatus.isFalse, "Creating", ""⟩

def Available : Condition := ⟨ConditionType.Ready, CStatus.isTrue, "Available", ""⟩

def Unavailable : Condition := ⟨ConditionType.Ready, CStatus.isFalse, "Unavailable", ""⟩

def Deleting : Condition := ⟨ConditionType.Ready, CStatus.isFalse, "Deleting", ""⟩

def ReconcileSuccess : Condition := ⟨ConditionType.Synced, CStatus.isTrue, "ReconcileSuccess", ""⟩

def ReconcileError (e : Err) : Condition := ⟨ConditionType.Synced, CStatus.isFalse, "ReconcileError", e.msg⟩

def ReferenceResolutionSuccess : Condition := ⟨ConditionType.ReferencesResolved, CStatus.isTrue, "ReferenceResolutionSuccess", ""⟩

def ReferenceResolutionBlocked (e : Err) : Condition := ⟨ConditionType.ReferencesResolved, CStatus.isFalse, "ReferenceResolutionBlocked", e.msg⟩

/-- Setting one condition: the entry for its type is replaced (last write
wins per type, history is not retained). -/
def setCondition (cs : List Condition) (c : Condition) : List Condition :=
  cs.filter (fun x => x.ctype != c.ctype) ++ [c]

/-- `ReclaimPolicy` is a string type in the runtime API. -/
def ReclaimDelete : String := "Delete"

def ReclaimRetain : String := "Retain"

/-- Desired spec of an RDSInstance record (the fields the reconciler reads). -/
structure RDSInstanceSpec where
  engine : String
  masterUsername : String
  reclaimPolicy : String
deriving DecidableEq, Repr

/-- Observed status of an RDSInstance record. -/
structure RDSInstanceStatus where
  instanceName : String
  state : String
  endpoint : String
  providerID : String
  bindable : Bool
  conditions : List Condition
deriving DecidableEq, Repr

/-- The RDSInstance record: metadata (uid, deletion timestamp, finalizers),
desired spec and observed status. -/
structure RDSInstance where
  uid : String
  deletionTimestamp : Option Nat
  finalizers : List String
  spec : RDSInstanceSpec
  status : RDSInstanceStatus
deriving DecidableEq, Repr

/-- The zero value of `RDSInstance` that `Reconcile` allocates before the
fetch. -/
def blankRDSInstance : RDSInstance :=
  ⟨"", none, [], ⟨"", "", ""⟩, ⟨"", "", "", "", false, []⟩⟩

/-- `Status.SetConditions(cs...)`: applied left to right. -/
def setConditions (i : RDSInstance) (cs : List Condition) : RDSInstance :=
  { i with status.conditions := cs.foldl setCondition i.status.conditions }

/-- Lookup of the stored entry for type `t` in a condition list, or an
unknown-status default when absent. -/
def findCondition (cs : List Condition) (t : ConditionType) : Condition :=
  match cs.find? (fun c => c.ctype == t) with
  | some c => c
  | none => ⟨t, CStatus.unknownStatus, "", ""⟩

/-- `GetCondition(t)`: the stored entry for type `t`, or an unknown-status
default when absent. -/
def getCondition (i : RDSInstance) (t : ConditionType) : Condition :=
  findCondition i.status.conditions t

/-- `resource.IsConditionTrue(c)`. -/
def isConditionTrue (c : Condition) : Bool :=
  c.status == CStatus.isTrue

/-- `meta.AddFinalizer`: appends the finalizer unless already present. -/
def addFinalizer (i : RDSInstance) (f : String) : RDSInstance :=
  if f ∈ i.finalizers then i else { i with finalizers := i.finalizers ++ [f] }

/-- `meta.RemoveFinalizer`: removes the finalizer. -/
def removeFinalizer (i : RDSInstance) (f : String) : RDSInstance :=
  { i with finalizers := i.finalizers.filter (fun x => x != f) }

/-- Modelled from the spec: `resource.SetBindable` marks the record
"bindable (eligible for consumption by dependents)". -/
def setBindable (i : RDSInstance) : RDSInstance :=
  { i with status.bindable := true }

def controllerName : String := "rds.aws.crossplane.io"

def finalizer : String := "finalizer." ++ controllerName

/-- `aLongWait = 60 * time.Second`, in seconds. -/
def aLongWait : Nat := 60

def errUpdateManagedStatus : String := "cannot update managed resource status"

/-- Modelled from the spec: the provider-defined external state enumeration
(`databasev1alpha2.RDSInstanceStateCreating` etc., outside `src/`); the spec
names the states `creating` / `available` / `failed`. -/
def RDSInstanceStateCreating : String := "creating"

def RDSInstanceStateAvailable : String := "available"

def RDSInstanceStateFailed : String := "failed"

/-- Connection-secret keys of the runtime API. -/
def ResourceCredentialsSecretUserKey : String := "username"

def ResourceCredentialsSecretPasswordKey : String := "password"

def ResourceCredentialsSecretEndpointKey : String := "endpoint"

/-- Modelled from the spec: the provider client's `get` returns
"(externalState, endpoint, providerID)"; mirrors the `rds.Instance` fields
the controller reads (`Status`, `Endpoint`, `ARN`). -/
structure DBInstance where
  status : String
  endpoint : String
  arn : String
deriving DecidableEq, Repr

/-- `reconcile.Result`: requeue flag and requeue-after delay in seconds. -/
structure ReconcileResult where
  requeue : Bool
  requeueAfter : Nat
deriving DecidableEq, Repr

/-- `result = reconcile.Result{}`. -/
def result : ReconcileResult := ⟨false, 0⟩

/-- `resultRequeue = reconcile.Result{Requeue: true}`. -/
def resultRequeue : ReconcileResult := ⟨true, 0⟩

/-- Connection details: key/value pairs handed to the publisher. -/
abbrev ConnectionDetails := List (String × String)

/-- External calls a reconciler invocation can issue, in order. -/
inductive Call where
  | createInstance (name : String) (password : String)
  | getInstance (name : String)
  | deleteInstance (name : String)
  | publish (details : ConnectionDetails)
  | resolveReferences
  | update
deriving DecidableEq, Repr

/-- Whether a trace contains a publish call. -/
def hasPublish (cs : List Call) : Bool :=
  cs.any fun c => match c with
    | Call.publish _ => true
    | _ => false

/-- Whether a trace contains a provider delete call. -/
def hasDeleteInstance (cs : List Call) : Bool :=
  cs.any fun c => match c with
    | Call.deleteInstance _ => true
    | _ => false

/-- Whether a trace contains a provider create call. -/
def hasCreateInstance (cs : List Call) : Bool :=
  cs.any fun c => match c with
    | Call.createInstance _ _ => true
    | _ => false

/-- Number of publish calls in a trace. -/
def countPublish (cs : List Call) : Nat :=
  (cs.filter fun c => match c with
    | Call.publish _ => true
    | _ => false).length

/-- Result of one reconciler invocation: the returned `reconcile.Result`,
the returned error, the record as the invocation leaves it, and the trace of
external calls issued. -/
structure Outcome where
  res : ReconcileResult
  err : Option Err
  record : RDSInstance
  calls : List Call
deriving DecidableEq, Repr

/-- Prefix an outcome's trace with earlier calls. -/
def withCalls (pre : List Call) (o : Outcome) : Outcome :=
  { o with calls := pre ++ o.calls }

/-- The oracle for one invocation: the result each collaborator call would
return if issued. `getRecord` is the record store's fetch, `connectResult`
the error of building the provider client, `resolveErr` the reference
resolver's answer, `password` is `util.GeneratePassword(20)`, `createErr` /
`getResult` / `deleteErr` the provider client's answers, `publishErr` the
publisher's answer and `updateErr` the record store's persist answer. -/
structure Env where
  getRecord : Except Err RDSInstance
  connectResult : Option Err
  resolveErr : Option Err
  password : Except Err String
  createErr : Option Err
  getResult : Except Err DBInstance
  deleteErr : Option Err
  publishErr : Option Err
  updateErr : Option Err
deriving Repr

/-- `fail`: set the `ReconcileError` condition, persist, request immediate
requeue. -/
def fail (env : Env) (i : RDSInstance) (e : Err) : Outcome :=
  ⟨resultRequeue, env.updateErr, setConditions i [ReconcileError e], [Call.update]⟩

/-- `_create`: set `Creating`, derive the resource name, generate a
password, call provider create (absorbing AlreadyExists), publish the
credentials unless the resource already existed, then set `instanceName`,
add the finalizer, set `ReconcileSuccess`, persist and requeue. -/
def _create (env : Env) (i0 : RDSInstance) : Outcome :=
  let i := setConditions i0 [Creating]
  let resourceName := i0.spec.engine ++ "-" ++ i0.uid
  match env.password with
  | Except.error e => fail env i e
  | Except.ok password =>
    let createCall := Call.createInstance resourceName password
    let finish := fun (i : RDSInstance) (calls : List Call) =>
      let i := { i with status.instanceName := resourceName }
      let i := addFinalizer i finalizer
      let i := setConditions i [ReconcileSuccess]
      (⟨resultRequeue, env.updateErr, i, calls ++ [Call.update]⟩ : Outcome)
    match ignore isErrorAlreadyExists env.createErr with
    | some e => withCalls [createCall] (fail env i e)
    | none =>
      if !(isErrorAlreadyExists env.createErr) then
        let details : ConnectionDetails :=
          [(ResourceCredentialsSecretUserKey, i.spec.masterUsername),
           (ResourceCredentialsSecretPasswordKey, password)]
        match env.publishErr with
        | some e => withCalls [createCall, Call.publish details] (fail env i e)
        | none => finish i [createCall, Call.publish details]
      else
        finish i [createCall]

/-- `_sync`: fetch the external instance, copy state/endpoint/ARN into the
status, then dispatch on the external state. -/
def _sync (env : Env) (i0 : RDSInstance) : Outcome :=
  let getCall := Call.getInstance i0.status.instanceName
  match env.getResult with
  | Except.error e => withCalls [getCall] (fail env i0 e)
  | Except.ok db =>
    let i := { i0 with
      status.state := db.status
      status.endpoint := db.endpoint
      status.providerID := db.arn }
    if db.status = RDSInstanceStateCreating then
      let i := setConditions i [Creating, ReconcileSuccess]
      ⟨resultRequeue, env.updateErr, i, [getCall, Call.update]⟩
    else if db.status = RDSInstanceStateFailed then
      let i := setConditions i [Unavailable, ReconcileSuccess]
      ⟨result, env.updateErr, i, [getCall, Call.update]⟩
    else if db.status = RDSInstanceStateAvailable then
      let i := setConditions i [Available]
      let i := setBindable i
      let details : ConnectionDetails :=
        [(ResourceCredentialsSecretUserKey, i.spec.masterUsername),
         (ResourceCredentialsSecretEndpointKey, i.status.endpoint)]
      match env.publishErr with
      | some e => withCalls [getCall, Call.publish details] (fail env i e)
      | none =>
        let i := setConditions i [ReconcileSuccess]
        ⟨result, env.updateErr, i, [getCall, Call.publish details, Call.update]⟩
    else
      withCalls [getCall] (fail env i ⟨ErrClass.otherErr, "unexpected resource status: " ++ db.status⟩)

/-- `_delete`: set `Deleting`; when the reclaim policy is `Delete`, call
provider delete (absorbing NotFound); then remove the finalizer, set
`ReconcileSuccess` and persist. -/
def _delete (env : Env) (i0 : RDSInstance) : Outcome :=
  let i := setConditions i0 [Deleting]
  let finish := fun (i : RDSInstance) (calls : List Call) =>
    let i := removeFinalizer i finalizer
    let i := setConditions i [ReconcileSuccess]
    (⟨result, env.updateErr, i, calls ++ [Call.update]⟩ : Outcome)
  if i.spec.reclaimPolicy = ReclaimDelete then
    let deleteCall := Call.deleteInstance i.status.instanceName
    match env.deleteErr with
    | some e =>
      if !(isErrorNotFound (some e)) then withCalls [deleteCall] (fail env i e)
      else finish i [deleteCall]
    | none => finish i [deleteCall]
  else
    finish i []

/-- The branch of `Reconcile` on deletion intent and the provisioning
marker. -/
def branchOn (env : Env) (i : RDSInstance) (pre : List Call) : Outcome :=
  if i.deletionTimestamp.isSome then withCalls pre (_delete env i)
  else if i.status.instanceName = "" then withCalls pre (_create env i)
  else withCalls pre (_sync env i)

/-- `Reconcile`: fetch the record, build the provider client, resolve
references while the `ReferencesResolved` condition is not true, then branch
into the delete / create / sync phase. -/
def Reconcile (env : Env) : Outcome :=
  match env.getRecord with
  | Except.error e =>
    if isErrorNotFound (some e) then ⟨result, none, blankRDSInstance, []⟩
    else ⟨result, some e, blankRDSInstance, []⟩
  | Except.ok inst =>
    match env.connectResult with
    | some e => fail env inst e
    | none =>
      if !(isConditionTrue (getCondition inst ConditionType.ReferencesResolved)) then
        match env.resolveErr with
        | some e =>
          let condition :=
            if isReferencesAccessError e then ReferenceResolutionBlocked e
            else ReconcileError e
          let inst := setConditions inst [condition]
          ⟨⟨false, aLongWait⟩, errorsWrap env.updateErr errUpdateManagedStatus, inst,
            [Call.resolveReferences, Call.update]⟩
        | none =>
          let inst := setConditions inst [ReferenceResolutionSuccess]
          branchOn env inst [Call.resolveReferences]
      else
        branchOn env inst []

/-- The record and trace prefix with which `Reconcile` enters the branch
when the reference-resolution step passes: the record unchanged when the
`ReferencesResolved` condition is already true, otherwise the record with
the `ReferenceResolutionSuccess` condition added after a resolver call. -/
def resolveStep (i : RDSInstance) : RDSInstance × List Call :=
  if !(isConditionTrue (getCondition i ConditionType.ReferencesResolved)) then
    (setConditions i [ReferenceResolutionSuccess], [Call.resolveReferences])
  else (i, [])

/-- A sample record, used to instantiate theorems at concrete inputs. -/
def inst0 : RDSInstance :=
  ⟨"uid1", none, [], ⟨"mysql", "admin", "Delete"⟩, ⟨"", "", "", "", false, []⟩⟩

/-- A sample record that already carries the provisioning marker and the
resolved-references condition. -/
def inst1 : RDSInstance :=
  ⟨"uid1", none, ["finalizer.rds.aws.crossplane.io"], ⟨"mysql", "admin", "Delete"⟩,
    ⟨"mysql-uid1", "creating", "", "", false, [ReferenceResolutionSuccess]⟩⟩

/-- A sample oracle where every collaborator call succeeds. -/
def env0 : Env :=
  ⟨Except.ok inst0, none, none, Except.ok "pw", none,
    Except.ok ⟨"available", "ep", "arn"⟩, none, none, none⟩

/-! ### Lemmas about the condition store -/

theorem find?_setCondition (cs : List Condition) (c : Condition) (t : ConditionType) :
    (setCondition cs c).find? (fun x => x.ctype == t) =
      if c.ctype = t then some c else cs.find? (fun x => x.ctype == t) := by
  unfold setCondition
  induction cs with
  | nil =>
    simp only [List.filter_nil, List.nil_append, List.find?_singleton]
    by_cases h : c.ctype = t
    · simp [h]
    · simp [h]
  | cons a cs ih =>
    rw [List.filter_cons]
    by_cases ha : (a.ctype != c.ctype) = true
    · rw [if_pos ha, List.cons_append]
      by_cases hat : (a.ctype == t) = true
      · have hct : ¬ c.ctype = t := by
          intro hc
          rw [bne_iff_ne] at ha
          exact ha (by rw [eq_of_beq hat, hc])
        rw [List.find?_cons_of_pos (p := fun x : Condition => x.ctype == t) _ hat, if_neg hct,
          List.find?_cons_of_pos (p := fun x : Condition => x.ctype == t) _ hat]
      · rw [List.find?_cons_of_neg (p := fun x : Condition => x.ctype == t) _ (by simpa using hat), ih]
        by_cases hct : c.ctype = t
        · rw [if_pos hct, if_pos hct]
        · rw [if_neg hct, if_neg hct,
            List.find?_cons_of_neg (p := fun x : Condition => x.ctype == t) _ (by simpa using hat)]
    · rw [if_neg ha, ih]
      have hac : a.ctype = c.ctype := by simpa using ha
      by_cases hct : c.ctype = t
      · rw [if_pos hct, if_pos hct]
      · have hat : ¬ (a.ctype == t) = true := by simp [hac, hct]
        rw [if_neg hct, if_neg hct, List.find?_cons_of_neg (p := fun x : Condition => x.ctype == t) _ hat]

theorem findCondition_setCondition_eq (cs : List Condition) (c : Condition) (t : ConditionType)
    (h : c.ctype = t) : findCondition (setCondition cs c) t = c := by
  unfold findCondition
  rw [find?_setCondition, if_pos h]

theorem findCondition_setCondition_ne (cs : List Condition) (c : Condition) (t : ConditionType)
    (h : ¬ c.ctype = t) : findCondition (setCondition cs c) t = findCondition cs t := by
  unfold findCondition
  rw [find?_setCondition, if_neg h]

theorem getCondition_setConditions_single (i : RDSInstance) (c : Condition) (t : ConditionType) :
    getCondition (setConditions i [c]) t = if c.ctype = t then c else getCondition i t := by
  simp only [getCondition, setConditions, List.foldl]
  by_cases h : c.ctype = t
  · rw [findCondition_setCondition_eq _ _ _ h, if_pos h]
  · rw [findCondition_setCondition_ne _ _ _ h, if_neg h]

@[simp] theorem getCondition_def (i : RDSInstance) (t : ConditionType) :
    getCondition i t = findCondition i.status.conditions t := rfl

@[simp] theorem setConditions_conditions (i : RDSInstance) (cs : List Condition) :
    (setConditions i cs).status.conditions = cs.foldl setCondition i.status.conditions := rfl

@[simp] theorem removeFinalizer_conditions (i : RDSInstance) (f : String) :
    (removeFinalizer i f).status.conditions = i.status.conditions := rfl

@[simp] theorem addFinalizer_conditions (i : RDSInstance) (f : String) :
    (addFinalizer i f).status.conditions = i.status.conditions := by
  unfold addFinalizer; split <;> rfl

theorem setConditions_pair (i : RDSInstance) (a b : Condition) :
    setConditions i [a, b] = setConditions (setConditions i [a]) [b] := rfl

/-! ### Frame lemmas: which fields each record operation leaves unchanged -/

@[simp] theorem setConditions_deletionTimestamp (i : RDSInstance) (cs : List Condition) :
    (setConditions i cs).deletionTimestamp = i.deletionTimestamp := rfl

@[simp] theorem setConditions_uid (i : RDSInstance) (cs : List Condition) :
    (setConditions i cs).uid = i.uid := rfl

@[simp] theorem setConditions_finalizers (i : RDSInstance) (cs : List Condition) :
    (setConditions i cs).finalizers = i.finalizers := rfl

@[simp] theorem setConditions_spec (i : RDSInstance) (cs : List Condition) :
    (setConditions i cs).spec = i.spec := rfl

@[simp] theorem setConditions_instanceName (i : RDSInstance) (cs : List Condition) :
    (setConditions i cs).status.instanceName = i.status.instanceName := rfl

@[simp] theorem setConditions_state (i : RDSInstance) (cs : List Condition) :
    (setConditions i cs).status.state = i.status.state := rfl

@[simp] theorem setConditions_endpoint (i : RDSInstance) (cs : List Condition) :
    (setConditions i cs).status.endpoint = i.status.endpoint := rfl

@[simp] theorem setConditions_providerID (i : RDSInstance) (cs : List Condition) :
    (setConditions i cs).status.providerID = i.status.providerID := rfl

@[simp] theorem setConditions_bindable (i : RDSInstance) (cs : List Condition) :
    (setConditions i cs).status.bindable = i.status.bindable := rfl

@[simp] theorem addFinalizer_deletionTimestamp (i : RDSInstance) (f : String) :
    (addFinalizer i f).deletionTimestamp = i.deletionTimestamp := by
  unfold addFinalizer; split <;> rfl

@[simp] theorem addFinalizer_status (i : RDSInstance) (f : String) :
    (addFinalizer i f).status = i.status := by
  unfold addFinalizer; split <;> rfl

@[simp] theorem addFinalizer_spec (i : RDSInstance) (f : String) :
    (addFinalizer i f).spec = i.spec := by
  unfold addFinalizer; split <;> rfl

@[simp] theorem removeFinalizer_deletionTimestamp (i : RDSInstance) (f : String) :
    (removeFinalizer i f).deletionTimestamp = i.deletionTimestamp := rfl

@[simp] theorem removeFinalizer_status (i : RDSInstance) (f : String) :
    (removeFinalizer i f).status = i.status := rfl

@[simp] theorem removeFinalizer_spec (i : RDSInstance) (f : String) :
    (removeFinalizer i f).spec = i.spec := rfl

@[simp] theorem setBindable_deletionTimestamp (i : RDSInstance) :
    (setBindable i).deletionTimestamp = i.deletionTimestamp := rfl

@[simp] theorem setBindable_conditions (i : RDSInstance) :
    (setBindable i).status.conditions = i.status.conditions := rfl

@[simp] theorem setBindable_instanceName (i : RDSInstance) :
    (setBindable i).status.instanceName = i.status.instanceName := rfl

@[simp] theorem setBindable_endpoint (i : RDSInstance) :
    (setBindable i).status.endpoint = i.status.endpoint := rfl

@[simp] theorem setBindable_finalizers (i : RDSInstance) :
    (setBindable i).finalizers = i.finalizers := rfl

@[simp] theorem setBindable_spec (i : RDSInstance) :
    (setBindable i).spec = i.spec := rfl

@[simp] theorem withCalls_res (pre : List Call) (o : Outcome) :
    (withCalls pre o).res = o.res := rfl

@[simp] theorem withCalls_err (pre : List Call) (o : Outcome) :
    (withCalls pre o).err = o.err := rfl

@[simp] theorem withCalls_record (pre : List Call) (o : Outcome) :
    (withCalls pre o).record = o.record := rfl

@[simp] theorem withCalls_calls (pre : List Call) (o : Outcome) :
    (withCalls pre o).calls = pre ++ o.calls := rfl

theorem withCalls_nil (o : Outcome) : withCalls [] o = o := by
  simp [withCalls]

theorem mem_addFinalizer (i : RDSInstance) (f : String) :
    f ∈ (addFinalizer i f).finalizers := by
  unfold addFinalizer
  split
  · assumption
  · simp

theorem not_mem_removeFinalizer (i : RDSInstance) (f : String) :
    f ∉ (removeFinalizer i f).finalizers := by
  unfold removeFinalizer
  intro h
  rcases List.mem_filter.mp h with ⟨_, hne⟩
  simp at hne

/-! ### Per-phase frame helpers -/

theorem fail_deletionTimestamp (env : Env) (i : RDSInstance) (e : Err) :
    (fail env i e).record.deletionTimestamp = i.deletionTimestamp := by
  simp [fail]

theorem create_deletionTimestamp (env : Env) (i : RDSInstance) :
    (_create env i).record.deletionTimestamp = i.deletionTimestamp := by
  unfold _create
  cases hpw : env.password with
  | error e => simp [fail]
  | ok pw =>
    cases hig : ignore isErrorAlreadyExists env.createErr with
    | some e => simp [fail]
    | none =>
      by_cases hae : isErrorAlreadyExists env.createErr
      · simp [hae]
      · cases hpub : env.publishErr <;> simp [hae, fail]

theorem sync_deletionTimestamp (env : Env) (i : RDSInstance) :
    (_sync env i).record.deletionTimestamp = i.deletionTimestamp := by
  unfold _sync
  cases hget : env.getResult with
  | error e => simp [fail]
  | ok db =>
    by_cases h1 : db.status = RDSInstanceStateCreating
    · simp [h1]
    · by_cases h2 : db.status = RDSInstanceStateFailed
      · simp [h1, h2, RDSInstanceStateCreating, RDSInstanceStateFailed]
      · by_cases h3 : db.status = RDSInstanceStateAvailable
        · cases hpub : env.publishErr <;>
            simp [h1, h2, h3, fail, RDSInstanceStateCreating, RDSInstanceStateFailed,
              RDSInstanceStateAvailable]
        · simp [h1, h2, h3, fail]

theorem delete_deletionTimestamp (env : Env) (i : RDSInstance) :
    (_delete env i).record.deletionTimestamp = i.deletionTimestamp := by
  unfold _delete
  by_cases hpol : i.spec.reclaimPolicy = ReclaimDelete
  · cases hdel : env.deleteErr with
    | some e =>
      by_cases hnf : isErrorNotFound (some e)
      · simp [hpol, hnf]
      · simp [hpol, hnf, fail]
    | none => simp [hpol]
  · simp [hpol]

theorem branchOn_deletionTimestamp (env : Env) (i : RDSInstance) (pre : List Call) :
    (branchOn env i pre).record.deletionTimestamp = i.deletionTimestamp := by
  unfold branchOn
  split
  · simp [delete_deletionTimestamp]
  · split
    · simp [create_deletionTimestamp]
    · simp [sync_deletionTimestamp]

/-- C8: no operation of the reconciler — `Reconcile` or any of the create,
sync or delete phases, nor the `fail` helper — ever clears or modifies the
record's deletion timestamp: the field after the operation equals its value
before. -/
theorem reconciler_preserves_deletionTimestamp :
    (∀ env i, env.getRecord = Except.ok i →
        (Reconcile env).record.deletionTimestamp = i.deletionTimestamp)
  ∧ (∀ env i, (_create env i).record.deletionTimestamp = i.deletionTimestamp)
  ∧ (∀ env i, (_sync env i).record.deletionTimestamp = i.deletionTimestamp)
  ∧ (∀ env i, (_delete env i).record.deletionTimestamp = i.deletionTimestamp)
  ∧ (∀ env i e, (fail env i e).record.deletionTimestamp = i.deletionTimestamp) := by
  refine ⟨?_, create_deletionTimestamp, sync_deletionTimestamp,
    delete_deletionTimestamp, fail_deletionTimestamp⟩
  intro env i hget
  unfold Reconcile
  rw [hget]
  cases hconn : env.connectResult with
  | some e => simp [fail]
  | none =>
    by_cases hres : isConditionTrue (findCondition i.status.conditions ConditionType.ReferencesResolved)
    · simp [hres, branchOn_deletionTimestamp]
    · cases hre : env.resolveErr with
      | some e => simp [hres]
      | none => simp [hres, branchOn_deletionTimestamp]

/-- Witness for C8 at a concrete environment and record. -/
theorem reconciler_preserves_deletionTimestamp_witness :
    (Reconcile env0).record.deletionTimestamp = inst0.deletionTimestamp :=
  reconciler_preserves_deletionTimestamp.1 env0 inst0 rfl

/-- C9: when the record store's fetch reports NotFound, `Reconcile` returns
the empty result and a nil error, with no side effect: no condition set, no
provider call, no publish, no persist. -/
theorem reconcile_fetch_notFound_noop (env : Env) (e : Err)
    (hget : env.getRecord = Except.error e) (hcls : e.cls = ErrClass.notFound) :
    Reconcile env = ⟨result, none, blankRDSInstance, []⟩ := by
  unfold Reconcile
  rw [hget]
  simp [isErrorNotFound, hcls]

/-- Witness for C9: a concrete NotFound fetch. -/
theorem reconcile_fetch_notFound_noop_witness :
    Reconcile { env0 with getRecord := Except.error ⟨ErrClass.notFound, "gone"⟩ } =
      ⟨result, none, blankRDSInstance, []⟩ :=
  reconcile_fetch_notFound_noop _ ⟨ErrClass.notFound, "gone"⟩ rfl rfl

theorem resolveStep_deletionTimestamp (i : RDSInstance) :
    (resolveStep i).1.deletionTimestamp = i.deletionTimestamp := by
  unfold resolveStep
  split <;> simp

theorem resolveStep_instanceName (i : RDSInstance) :
    (resolveStep i).1.status.instanceName = i.status.instanceName := by
  unfold resolveStep
  split <;> simp

/-- C1: for every fetched record (with the provider client built and the
reference gate passing), `Reconcile` derives the phase from the record's
current fields in this order: deletion timestamp present → delete phase;
else `instanceName` empty → create phase; else sync phase — in particular
never the create phase once `instanceName` is non-empty, regardless of the
record's prior conditions. -/
theorem reconcile_branch_order (env : Env) (i : RDSInstance)
    (hget : env.getRecord = Except.ok i) (hconn : env.connectResult = none)
    (hgate : isConditionTrue (getCondition i ConditionType.ReferencesResolved) = true ∨
      env.resolveErr = none) :
    ((i.deletionTimestamp ≠ none →
        Reconcile env = withCalls (resolveStep i).2 (_delete env (resolveStep i).1))
  ∧ (i.deletionTimestamp = none → i.status.instanceName = "" →
        Reconcile env = withCalls (resolveStep i).2 (_create env (resolveStep i).1))
  ∧ (i.deletionTimestamp = none → ¬ i.status.instanceName = "" →
        Reconcile env = withCalls (resolveStep i).2 (_sync env (resolveStep i).1)))
  ∧ (resolveStep i).1.deletionTimestamp = i.deletionTimestamp
  ∧ (resolveStep i).1.status.instanceName = i.status.instanceName := by
  have hmain : Reconcile env = branchOn env (resolveStep i).1 (resolveStep i).2 := by
    unfold Reconcile resolveStep
    rw [hget, hconn]
    by_cases ht : isConditionTrue (findCondition i.status.conditions ConditionType.ReferencesResolved)
    · simp only [getCondition_def] at hgate ⊢
      simp [ht, withCalls_nil, branchOn]
    · rcases hgate with hg | hg
      · rw [getCondition_def] at hg
        exact absurd hg ht
      · simp [ht, hg]
  have hbr : ∀ pre j, branchOn env j pre =
      if j.deletionTimestamp.isSome then withCalls pre (_delete env j)
      else if j.status.instanceName = "" then withCalls pre (_create env j)
      else withCalls pre (_sync env j) := fun pre j => rfl
  refine ⟨⟨?_, ?_, ?_⟩, resolveStep_deletionTimestamp i, resolveStep_instanceName i⟩
  · intro h
    rw [hmain, hbr]
    rw [resolveStep_deletionTimestamp]
    simp [Option.isSome_iff_ne_none, h]
  · intro h hn
    rw [hmain, hbr]
    rw [resolveStep_deletionTimestamp, resolveStep_instanceName]
    simp [h, hn]
  · intro h hn
    rw [hmain, hbr]
    rw [resolveStep_deletionTimestamp, resolveStep_instanceName]
    simp [h, hn]

/-- Witness for C1: a record with a non-empty `instanceName`, no deletion
intent and an arbitrary prior condition set takes the sync branch. -/
theorem reconcile_branch_order_witness :
    Reconcile { env0 with getRecord := Except.ok inst1 } =
      withCalls (resolveStep inst1).2
        (_sync { env0 with getRecord := Except.ok inst1 } (resolveStep inst1).1) :=
  (reconcile_branch_order { env0 with getRecord := Except.ok inst1 } inst1 rfl rfl
    (Or.inl (by decide))).1.2.2 rfl (by decide)

/-- C6: in the delete phase with reclaim policy `Retain`, the provider
delete call is never invoked, yet the owned finalizer is removed, the
`Deleting` and `ReconcileSuccess` conditions are set, the record is
persisted and no requeue is returned. -/
theorem delete_retain_skips_provider (env : Env) (i : RDSInstance)
    (hpol : i.spec.reclaimPolicy = ReclaimRetain) :
    hasDeleteInstance (_delete env i).calls = false
  ∧ (_delete env i).calls = [Call.update]
  ∧ finalizer ∉ (_delete env i).record.finalizers
  ∧ getCondition (_delete env i).record ConditionType.Ready = Deleting
  ∧ getCondition (_delete env i).record ConditionType.Synced = ReconcileSuccess
  ∧ (_delete env i).res = result := by
  have hne : ¬ i.spec.reclaimPolicy = ReclaimDelete := by
    rw [hpol]
    simp [ReclaimRetain, ReclaimDelete]
  have hout : _delete env i =
      ⟨result, env.updateErr,
        setConditions (removeFinalizer (setConditions i [Deleting]) finalizer) [ReconcileSuccess],
        [Call.update]⟩ := by
    unfold _delete
    simp [hne]
  rw [hout]
  refine ⟨rfl, rfl, ?_, ?_, ?_, rfl⟩
  · simp only [setConditions_finalizers]
    exact not_mem_removeFinalizer _ _
  · simp [List.foldl, findCondition_setCondition_ne, findCondition_setCondition_eq,
      ReconcileSuccess, Deleting]
  · simp [List.foldl, findCondition_setCondition_eq, ReconcileSuccess]

/-- Witness for C6 at a concrete record with policy `Retain`. -/
theorem delete_retain_skips_provider_witness :
    hasDeleteInstance (_delete env0 { inst1 with spec.reclaimPolicy := "Retain" }).calls = false
  ∧ (_delete env0 { inst1 with spec.reclaimPolicy := "Retain" }).calls = [Call.update]
  ∧ finalizer ∉ (_delete env0 { inst1 with spec.reclaimPolicy := "Retain" }).record.finalizers
  ∧ getCondition (_delete env0 { inst1 with spec.reclaimPolicy := "Retain" }).record
      ConditionType.Ready = Deleting
  ∧ getCondition (_delete env0 { inst1 with spec.reclaimPolicy := "Retain" }).record
      ConditionType.Synced = ReconcileSuccess
  ∧ (_delete env0 { inst1 with spec.reclaimPolicy := "Retain" }).res = result :=
  delete_retain_skips_provider env0 { inst1 with spec.reclaimPolicy := "Retain" } rfl

/-- C7: in the delete phase with reclaim policy `Delete`, a provider delete
reporting NotFound is absorbed as success — finalizer removed,
`ReconcileSuccess` set, no error surfaced — while any other provider delete
error sets `ReconcileError`, leaves the finalizers unchanged and returns an
immediate requeue. -/
theorem delete_policy_delete_errors (env : Env) (i : RDSInstance)
    (hpol : i.spec.reclaimPolicy = ReclaimDelete) :
    (∀ e, env.deleteErr = some e → e.cls = ErrClass.notFound →
        (_delete env i).calls = [Call.deleteInstance i.status.instanceName, Call.update]
      ∧ finalizer ∉ (_delete env i).record.finalizers
      ∧ getCondition (_delete env i).record ConditionType.Synced = ReconcileSuccess
      ∧ (_delete env i).res = result)
  ∧ (∀ e, env.deleteErr = some e → ¬ e.cls = ErrClass.notFound →
        getCondition (_delete env i).record ConditionType.Synced = ReconcileError e
      ∧ (_delete env i).record.finalizers = i.finalizers
      ∧ (_delete env i).res = resultRequeue
      ∧ (_delete env i).calls = [Call.deleteInstance i.status.instanceName, Call.update]) := by
  constructor
  · intro e hdel hnf
    have hout : _delete env i =
        ⟨result, env.updateErr,
          setConditions (removeFinalizer (setConditions i [Deleting]) finalizer)
            [ReconcileSuccess],
          [Call.deleteInstance i.status.instanceName, Call.update]⟩ := by
      unfold _delete
      simp [hpol, hdel, isErrorNotFound, hnf]
    rw [hout]
    refine ⟨rfl, ?_, ?_, rfl⟩
    · simp only [setConditions_finalizers]
      exact not_mem_removeFinalizer _ _
    · simp [List.foldl, findCondition_setCondition_eq, ReconcileSuccess]
  · intro e hdel hnf
    have hout : _delete env i =
        ⟨resultRequeue, env.updateErr,
          setConditions (setConditions i [Deleting]) [ReconcileError e],
          [Call.deleteInstance i.status.instanceName, Call.update]⟩ := by
      unfold _delete fail
      simp [hpol, hdel, isErrorNotFound, hnf, withCalls]
    rw [hout]
    refine ⟨?_, by simp, rfl, rfl⟩
    simp [List.foldl, findCondition_setCondition_eq, ReconcileError]

/-- Witness for C7: both the NotFound-absorbed case and the other-error
case at concrete inputs. -/
theorem delete_policy_delete_errors_witness :
    ((_delete { env0 with deleteErr := some ⟨ErrClass.notFound, "gone"⟩ } inst1).res = result)
  ∧ ((_delete { env0 with deleteErr := some ⟨ErrClass.otherErr, "boom"⟩ } inst1).res =
      resultRequeue) :=
  ⟨((delete_policy_delete_errors { env0 with deleteErr := some ⟨ErrClass.notFound, "gone"⟩ }
      inst1 rfl).1 ⟨ErrClass.notFound, "gone"⟩ rfl rfl).2.2.2,
   ((delete_policy_delete_errors { env0 with deleteErr := some ⟨ErrClass.otherErr, "boom"⟩ }
      inst1 rfl).2 ⟨ErrClass.otherErr, "boom"⟩ rfl (by decide)).2.2.1⟩

@[simp] theorem setBindable_bindable (i : RDSInstance) :
    (setBindable i).status.bindable = true := rfl

/-- C3: in the create phase, a provider create reporting AlreadyExists is
treated as success without publishing: the generated credential is never
passed to the publisher, yet `Status.InstanceName` is set to the derived
name, the owned finalizer is added, `ReconcileSuccess` is set (so no error
condition is recorded) and an immediate requeue is returned. -/
theorem create_alreadyExists_no_publish (env : Env) (i : RDSInstance) (pw : String)
    (hpw : env.password = Except.ok pw) (e : Err) (hc : env.createErr = some e)
    (hae : e.cls = ErrClass.alreadyExists) :
    hasPublish (_create env i).calls = false
  ∧ (_create env i).record.status.instanceName = i.spec.engine ++ "-" ++ i.uid
  ∧ finalizer ∈ (_create env i).record.finalizers
  ∧ getCondition (_create env i).record ConditionType.Synced = ReconcileSuccess
  ∧ (_create env i).res = resultRequeue
  ∧ (_create env i).calls = [Call.createInstance (i.spec.engine ++ "-" ++ i.uid) pw,
      Call.update] := by
  refine ⟨?_, ?_, ?_, ?_, ?_, ?_⟩ <;>
    unfold _create <;>
    simp [hpw, hc, ignore, isErrorAlreadyExists, hae, mem_addFinalizer, hasPublish,
      List.foldl, findCondition_setCondition_eq, ReconcileSuccess]

/-- Witness for C3 at a concrete record and environment. -/
theorem create_alreadyExists_no_publish_witness :
    hasPublish (_create { env0 with createErr := some ⟨ErrClass.alreadyExists, "exists"⟩ }
      inst0).calls = false
  ∧ (_create { env0 with createErr := some ⟨ErrClass.alreadyExists, "exists"⟩ }
      inst0).record.status.instanceName = inst0.spec.engine ++ "-" ++ inst0.uid
  ∧ finalizer ∈ (_create { env0 with createErr := some ⟨ErrClass.alreadyExists, "exists"⟩ }
      inst0).record.finalizers
  ∧ getCondition (_create { env0 with createErr := some ⟨ErrClass.alreadyExists, "exists"⟩ }
      inst0).record ConditionType.Synced = ReconcileSuccess
  ∧ (_create { env0 with createErr := some ⟨ErrClass.alreadyExists, "exists"⟩ }
      inst0).res = resultRequeue
  ∧ (_create { env0 with createErr := some ⟨ErrClass.alreadyExists, "exists"⟩ }
      inst0).calls = [Call.createInstance (inst0.spec.engine ++ "-" ++ inst0.uid) "pw",
        Call.update] :=
  create_alreadyExists_no_publish _ inst0 "pw" rfl ⟨ErrClass.alreadyExists, "exists"⟩ rfl rfl

/-- C4: in the create phase, a provider create error other than
AlreadyExists sets `ReconcileError`, persists and returns an immediate
requeue while leaving `Status.InstanceName` and the finalizers unchanged
and publishing nothing, so a record with an empty `instanceName` re-enters
the create phase next time. -/
theorem create_error_keeps_name_empty (env : Env) (i : RDSInstance) (pw : String)
    (hpw : env.password = Except.ok pw) (e : Err) (hc : env.createErr = some e)
    (hne : ¬ e.cls = ErrClass.alreadyExists) :
    getCondition (_create env i).record ConditionType.Synced = ReconcileError e
  ∧ (_create env i).res = resultRequeue
  ∧ (_create env i).record.status.instanceName = i.status.instanceName
  ∧ (_create env i).record.finalizers = i.finalizers
  ∧ hasPublish (_create env i).calls = false
  ∧ (_create env i).calls = [Call.createInstance (i.spec.engine ++ "-" ++ i.uid) pw,
      Call.update] := by
  refine ⟨?_, ?_, ?_, ?_, ?_, ?_⟩ <;>
    unfold _create fail <;>
    simp [hpw, hc, ignore, isErrorAlreadyExists, hne, hasPublish, withCalls,
      List.foldl, findCondition_setCondition_eq, ReconcileError]

/-- Witness for C4 at a concrete record and environment. -/
theorem create_error_keeps_name_empty_witness :
    getCondition (_create { env0 with createErr := some ⟨ErrClass.otherErr, "boom"⟩ }
      inst0).record ConditionType.Synced = ReconcileError ⟨ErrClass.otherErr, "boom"⟩
  ∧ (_create { env0 with createErr := some ⟨ErrClass.otherErr, "boom"⟩ } inst0).res =
      resultRequeue
  ∧ (_create { env0 with createErr := some ⟨ErrClass.otherErr, "boom"⟩ }
      inst0).record.status.instanceName = inst0.status.instanceName
  ∧ (_create { env0 with createErr := some ⟨ErrClass.otherErr, "boom"⟩ }
      inst0).record.finalizers = inst0.finalizers
  ∧ hasPublish (_create { env0 with createErr := some ⟨ErrClass.otherErr, "boom"⟩ }
      inst0).calls = false
  ∧ (_create { env0 with createErr := some ⟨ErrClass.otherErr, "boom"⟩ }
      inst0).calls = [Call.createInstance (inst0.spec.engine ++ "-" ++ inst0.uid) "pw",
        Call.update] :=
  create_error_keeps_name_empty _ inst0 "pw" rfl ⟨ErrClass.otherErr, "boom"⟩ rfl (by decide)

/-- C10: the create phase sets the `Creating` condition unconditionally as
its first step, so after `_create` returns — on every path, including the
password-generation, provider-create and publish failure paths — the record
carries the `Creating` condition, on failure paths alongside
`ReconcileError`. -/
theorem create_creating_condition_always (env : Env) (i : RDSInstance) :
    getCondition (_create env i).record ConditionType.Ready = Creating
  ∧ (∀ e, env.password = Except.error e →
        getCondition (_create env i).record ConditionType.Synced = ReconcileError e)
  ∧ (∀ pw e, env.password = Except.ok pw → env.createErr = some e →
        ¬ e.cls = ErrClass.alreadyExists →
        getCondition (_create env i).record ConditionType.Synced = ReconcileError e)
  ∧ (∀ pw e, env.password = Except.ok pw → env.createErr = none → env.publishErr = some e →
        getCondition (_create env i).record ConditionType.Synced = ReconcileError e) := by
  refine ⟨?_, ?_, ?_, ?_⟩
  · unfold _create
    cases hpw : env.password with
    | error e =>
      simp [fail, List.foldl, findCondition_setCondition_eq, findCondition_setCondition_ne,
        ReconcileError, Creating]
    | ok pw =>
      cases hig : ignore isErrorAlreadyExists env.createErr with
      | some e =>
        simp [fail, List.foldl, findCondition_setCondition_eq, findCondition_setCondition_ne,
          ReconcileError, Creating]
      | none =>
        by_cases hae : isErrorAlreadyExists env.createErr
        · simp [hae, List.foldl, findCondition_setCondition_eq, findCondition_setCondition_ne,
            ReconcileSuccess, Creating]
        · cases hpub : env.publishErr <;>
            simp [hae, fail, withCalls, List.foldl, findCondition_setCondition_eq,
              findCondition_setCondition_ne, ReconcileError, ReconcileSuccess, Creating]
  · intro e hpw
    unfold _create fail
    simp [hpw, List.foldl, findCondition_setCondition_eq, ReconcileError]
  · intro pw e hpw hc hne
    unfold _create fail
    simp [hpw, hc, ignore, isErrorAlreadyExists, hne, withCalls, List.foldl,
      findCondition_setCondition_eq, ReconcileError]
  · intro pw e hpw hc hpub
    unfold _create fail
    simp [hpw, hc, hpub, ignore, isErrorAlreadyExists, withCalls, List.foldl,
      findCondition_setCondition_eq, ReconcileError]

/-- Witness for C10: the `Creating` condition and, on a concrete publish
failure, the accompanying `ReconcileError`. -/
theorem create_creating_condition_always_witness :
    getCondition (_create { env0 with publishErr := some ⟨ErrClass.otherErr, "nopub"⟩ }
      inst0).record ConditionType.Ready = Creating
  ∧ getCondition (_create { env0 with publishErr := some ⟨ErrClass.otherErr, "nopub"⟩ }
      inst0).record ConditionType.Synced = ReconcileError ⟨ErrClass.otherErr, "nopub"⟩ :=
  ⟨(create_creating_condition_always
      { env0 with publishErr := some ⟨ErrClass.otherErr, "nopub"⟩ } inst0).1,
   (create_creating_condition_always
      { env0 with publishErr := some ⟨ErrClass.otherErr, "nopub"⟩ } inst0).2.2.2
      "pw" ⟨ErrClass.otherErr, "nopub"⟩ rfl rfl rfl⟩

/-- C2: in the sync phase with a successful provider get, the dispatch on
the external state is exact: `creating` → `Creating` + `ReconcileSuccess`
with an immediate requeue; `failed` → `Unavailable` + `ReconcileSuccess`
with no requeue; `available` → `Available`, bindable, one publish of the
master username and endpoint, `ReconcileSuccess`, no requeue; any other
state → `ReconcileError` with an immediate requeue; publish is not called
outside the `available` case. -/
theorem sync_state_dispatch (env : Env) (i : RDSInstance) (db : DBInstance)
    (hget : env.getResult = Except.ok db) (hpub : env.publishErr = none) :
    (db.status = RDSInstanceStateCreating →
        (_sync env i).res = resultRequeue
      ∧ getCondition (_sync env i).record ConditionType.Ready = Creating
      ∧ getCondition (_sync env i).record ConditionType.Synced = ReconcileSuccess
      ∧ hasPublish (_sync env i).calls = false)
  ∧ (db.status = RDSInstanceStateFailed →
        (_sync env i).res = result
      ∧ getCondition (_sync env i).record ConditionType.Ready = Unavailable
      ∧ getCondition (_sync env i).record ConditionType.Synced = ReconcileSuccess
      ∧ hasPublish (_sync env i).calls = false)
  ∧ (db.status = RDSInstanceStateAvailable →
        (_sync env i).res = result
      ∧ getCondition (_sync env i).record ConditionType.Ready = Available
      ∧ getCondition (_sync env i).record ConditionType.Synced = ReconcileSuccess
      ∧ (_sync env i).record.status.bindable = true
      ∧ (_sync env i).calls = [Call.getInstance i.status.instanceName,
          Call.publish [(ResourceCredentialsSecretUserKey, i.spec.masterUsername),
            (ResourceCredentialsSecretEndpointKey, db.endpoint)], Call.update]
      ∧ countPublish (_sync env i).calls = 1)
  ∧ (¬ db.status = RDSInstanceStateCreating → ¬ db.status = RDSInstanceStateFailed →
      ¬ db.status = RDSInstanceStateAvailable →
        (_sync env i).res = resultRequeue
      ∧ getCondition (_sync env i).record ConditionType.Synced =
          ReconcileError ⟨ErrClass.otherErr, "unexpected resource status: " ++ db.status⟩
      ∧ hasPublish (_sync env i).calls = false) := by
  refine ⟨?_, ?_, ?_, ?_⟩
  · intro h1
    refine ⟨?_, ?_, ?_, ?_⟩ <;>
      unfold _sync <;>
      simp [hget, h1, hasPublish, List.foldl, findCondition_setCondition_eq,
        findCondition_setCondition_ne, Creating, ReconcileSuccess]
  · intro h2
    refine ⟨?_, ?_, ?_, ?_⟩ <;>
      unfold _sync <;>
      simp [hget, h2, RDSInstanceStateCreating, RDSInstanceStateFailed, hasPublish,
        List.foldl, findCondition_setCondition_eq, findCondition_setCondition_ne,
        Unavailable, ReconcileSuccess]
  · intro h3
    refine ⟨?_, ?_, ?_, ?_, ?_, ?_⟩ <;>
      unfold _sync <;>
      simp [hget, h3, hpub, RDSInstanceStateCreating, RDSInstanceStateFailed,
        RDSInstanceStateAvailable, hasPublish, countPublish, List.foldl,
        findCondition_setCondition_eq, findCondition_setCondition_ne,
        Available, ReconcileSuccess]
  · intro h1 h2 h3
    refine ⟨?_, ?_, ?_⟩ <;>
      unfold _sync fail <;>
      simp [hget, h1, h2, h3, hasPublish, withCalls, List.foldl,
        findCondition_setCondition_eq, ReconcileError]

/-- Witness for C2: the four dispatch cases at concrete external states. -/
theorem sync_state_dispatch_witness :
    ((_sync { env0 with getResult := Except.ok ⟨"creating", "", ""⟩ } inst1).res = resultRequeue)
  ∧ ((_sync { env0 with getResult := Except.ok ⟨"failed", "", ""⟩ } inst1).res = result)
  ∧ ((_sync { env0 with getResult := Except.ok ⟨"available", "ep", "arn"⟩ } inst1).record.status.bindable = true)
  ∧ ((_sync { env0 with getResult := Except.ok ⟨"weird", "", ""⟩ } inst1).res = resultRequeue) :=
  ⟨((sync_state_dispatch { env0 with getResult := Except.ok ⟨"creating", "", ""⟩ } inst1
      ⟨"creating", "", ""⟩ rfl rfl).1 rfl).1,
   ((sync_state_dispatch { env0 with getResult := Except.ok ⟨"failed", "", ""⟩ } inst1
      ⟨"failed", "", ""⟩ rfl rfl).2.1 rfl).1,
   ((sync_state_dispatch { env0 with getResult := Except.ok ⟨"available", "ep", "arn"⟩ } inst1
      ⟨"available", "ep", "arn"⟩ rfl rfl).2.2.1 rfl).2.2.2.1,
   ((sync_state_dispatch { env0 with getResult := Except.ok ⟨"weird", "", ""⟩ } inst1
      ⟨"weird", "", ""⟩ rfl rfl).2.2.2 (by decide) (by decide) (by decide)).1⟩

/-! ### The phases never touch the `ReferencesResolved` condition -/

theorem create_refCond (env : Env) (i : RDSInstance) :
    findCondition (_create env i).record.status.conditions ConditionType.ReferencesResolved =
      findCondition i.status.conditions ConditionType.ReferencesResolved := by
  unfold _create
  cases hpw : env.password with
  | error e =>
    simp [fail, List.foldl, findCondition_setCondition_ne, ReconcileError, Creating]
  | ok pw =>
    cases hig : ignore isErrorAlreadyExists env.createErr with
    | some e =>
      simp [fail, List.foldl, findCondition_setCondition_ne, ReconcileError, Creating]
    | none =>
      by_cases hae : isErrorAlreadyExists env.createErr
      · simp [hae, List.foldl, findCondition_setCondition_ne, ReconcileSuccess, Creating]
      · cases hpub : env.publishErr <;>
          simp [hae, fail, withCalls, List.foldl, findCondition_setCondition_ne,
            ReconcileError, ReconcileSuccess, Creating]

theorem sync_refCond (env : Env) (i : RDSInstance) :
    findCondition (_sync env i).record.status.conditions ConditionType.ReferencesResolved =
      findCondition i.status.conditions ConditionType.ReferencesResolved := by
  unfold _sync
  cases hget : env.getResult with
  | error e => simp [fail, List.foldl, findCondition_setCondition_ne, ReconcileError]
  | ok db =>
    by_cases h1 : db.status = RDSInstanceStateCreating
    · simp [h1, List.foldl, findCondition_setCondition_ne, Creating, ReconcileSuccess]
    · by_cases h2 : db.status = RDSInstanceStateFailed
      · simp [h1, h2, RDSInstanceStateCreating, RDSInstanceStateFailed, List.foldl,
          findCondition_setCondition_ne, Unavailable, ReconcileSuccess]
      · by_cases h3 : db.status = RDSInstanceStateAvailable
        · cases hpub : env.publishErr <;>
            simp [h1, h2, h3, RDSInstanceStateCreating, RDSInstanceStateFailed,
              RDSInstanceStateAvailable, fail, withCalls, List.foldl,
              findCondition_setCondition_ne, Available, ReconcileSuccess, ReconcileError]
        · simp [h1, h2, h3, fail, withCalls, List.foldl, findCondition_setCondition_ne,
            ReconcileError]

theorem delete_refCond (env : Env) (i : RDSInstance) :
    findCondition (_delete env i).record.status.conditions ConditionType.ReferencesResolved =
      findCondition i.status.conditions ConditionType.ReferencesResolved := by
  unfold _delete
  by_cases hpol : i.spec.reclaimPolicy = ReclaimDelete
  · cases hdel : env.deleteErr with
    | some e =>
      by_cases hnf : isErrorNotFound (some e)
      · simp [hpol, hnf, List.foldl, findCondition_setCondition_ne, Deleting,
          ReconcileSuccess]
      · simp [hpol, hnf, fail, withCalls, List.foldl, findCondition_setCondition_ne,
          Deleting, ReconcileError]
    | none =>
      simp [hpol, List.foldl, findCondition_setCondition_ne, Deleting, ReconcileSuccess]
  · simp [hpol, List.foldl, findCondition_setCondition_ne, Deleting, ReconcileSuccess]

theorem branchOn_refCond (env : Env) (j : RDSInstance) (pre : List Call) :
    findCondition (branchOn env j pre).record.status.conditions
      ConditionType.ReferencesResolved =
      findCondition j.status.conditions ConditionType.ReferencesResolved := by
  unfold branchOn
  split
  · simp [delete_refCond]
  · split
    · simp [create_refCond]
    · simp [sync_refCond]

/-- C5: while the `ReferencesResolved` condition is not true, a failed
reference resolution sets exactly one condition —
`ReferenceResolutionBlocked` for an access error, otherwise
`ReconcileError` — persists, and requeues after the 60-second long wait,
entering none of the phases and leaving `instanceName` untouched; on
successful resolution the `ReferenceResolutionSuccess` condition is set on
the record the invocation returns. -/
theorem reference_gate (env : Env) (i : RDSInstance)
    (hget : env.getRecord = Except.ok i) (hconn : env.connectResult = none)
    (hcond : isConditionTrue (getCondition i ConditionType.ReferencesResolved) = false) :
    (∀ e, env.resolveErr = some e →
        Reconcile env =
          ⟨⟨false, aLongWait⟩, errorsWrap env.updateErr errUpdateManagedStatus,
            setConditions i
              [if isReferencesAccessError e then ReferenceResolutionBlocked e
               else ReconcileError e],
            [Call.resolveReferences, Call.update]⟩)
  ∧ (∀ e, env.resolveErr = some e →
        (Reconcile env).record.status.instanceName = i.status.instanceName)
  ∧ (env.resolveErr = none →
        getCondition (Reconcile env).record ConditionType.ReferencesResolved =
          ReferenceResolutionSuccess) := by
  have hc' : isConditionTrue (findCondition i.status.conditions
      ConditionType.ReferencesResolved) = false := by
    simpa using hcond
  have h1 : ∀ e, env.resolveErr = some e →
      Reconcile env =
        ⟨⟨false, aLongWait⟩, errorsWrap env.updateErr errUpdateManagedStatus,
          setConditions i
            [if isReferencesAccessError e then ReferenceResolutionBlocked e
             else ReconcileError e],
          [Call.resolveReferences, Call.update]⟩ := by
    intro e hres
    unfold Reconcile
    rw [hget, hconn]
    simp [hc', hres]
  refine ⟨h1, ?_, ?_⟩
  · intro e hres
    rw [h1 e hres]
    simp
  · intro hres
    unfold Reconcile
    rw [hget, hconn]
    simp only [getCondition_def, hc', Bool.not_false, if_true, hres, ite_true]
    rw [branchOn_refCond]
    simp [List.foldl, findCondition_setCondition_eq, ReferenceResolutionSuccess]

/-- Witness for C5: a concrete blocked resolution and a concrete access
error, plus the success case. -/
theorem reference_gate_witness :
    ((Reconcile { env0 with resolveErr := some ⟨ErrClass.otherErr, "later"⟩ }).res =
      ⟨false, aLongWait⟩)
  ∧ ((Reconcile { env0 with resolveErr := some ⟨ErrClass.referencesAccess, "denied"⟩ }).record =
      setConditions inst0 [ReferenceResolutionBlocked ⟨ErrClass.referencesAccess, "denied"⟩])
  ∧ (getCondition (Reconcile env0).record ConditionType.ReferencesResolved =
      ReferenceResolutionSuccess) := by
  refine ⟨?_, ?_, ?_⟩
  · rw [(reference_gate { env0 with resolveErr := some ⟨ErrClass.otherErr, "later"⟩ } inst0
      rfl rfl rfl).1 ⟨ErrClass.otherErr, "later"⟩ rfl]
  · rw [(reference_gate { env0 with resolveErr := some ⟨ErrClass.referencesAccess, "denied"⟩ }
      inst0 rfl rfl rfl).1 ⟨ErrClass.referencesAccess, "denied"⟩ rfl]
    simp [isReferencesAccessError]
  · exact (reference_gate env0 inst0 rfl rfl rfl).2.2 rfl

end Rds
